import Mathlib

/-!
Shallow embedding of `core/src/from_meta_item.rs` from the darling crate:
the `FromMetaItem` conversion trait with its layered default methods, and
the built-in implementations (`bool`, `String`, `syn::Path`, `Option<T>`,
`HashMap<String, V>`).

The attribute-syntax node types (`syn::MetaItem`, `syn::NestedMetaItem`,
`syn::Lit` from syn 0.11) are modelled as inductive types; Rust `Result<T>`
(which is `Result<T, darling::Error>`) is `Except Error`.
-/

namespace Darling

/-- Style of a string literal in syn 0.11 (`StrStyle`): cooked, or raw with
a number of hash marks. -/
inductive StrStyle where
  | cooked : StrStyle
  | raw : Nat → StrStyle
  deriving DecidableEq

/-- Model of `syn::Lit` (syn 0.11): the literal kinds an attribute value can
take. `from_value` in the source matches on `Bool` and `Str` and sends every
other constructor to the catch-all arm. -/
inductive Lit where
  | str : String → StrStyle → Lit
  | byteStr : List Nat → Lit
  | byte : Nat → Lit
  | char : Char → Lit
  | int : Nat → Lit
  | bool : Bool → Lit
  | float : String → Lit
  deriving DecidableEq

mutual

/-- Model of `syn::MetaItem` (syn 0.11): a bare word, a list of nested
items, or a name=value pair. -/
inductive MetaItem where
  | word : String → MetaItem
  | list : String → List NestedMetaItem → MetaItem
  | nameValue : String → Lit → MetaItem

/-- Model of `syn::NestedMetaItem` (syn 0.11): an element of a list-form
attribute, either a bare literal or another meta item. -/
inductive NestedMetaItem where
  | literal : Lit → NestedMetaItem
  | metaItem : MetaItem → NestedMetaItem

end

/-- `syn::MetaItem::name()`: the ident of the item, for any of the three
shapes. -/
def MetaItem.name : MetaItem → String
  | .word i => i
  | .list i _ => i
  | .nameValue i _ => i

/-- Modelled from the spec: the kind component of darling's `Error` type,
whose source is not under `src/`. The spec lists "typed errors for
unsupported shapes, unexpected literal kinds, unknown values, duplicate
fields", which gives one constructor per kind, each carrying the tag or
value string that the call sites in `from_meta_item.rs` pass. -/
inductive ErrorKind where
  | unsupportedFormat : String → ErrorKind
  | unexpectedType : String → ErrorKind
  | unknownValue : String → ErrorKind
  | duplicateField : String → ErrorKind
  deriving DecidableEq

/-- Modelled from the spec: darling's `Error` type, whose source is not
under `src/`. The spec calls the errors "structured, position-aware": the
structure is the typed `ErrorKind`; position-awareness is a path of
locations in the attribute syntax that the error can carry. The
constructor functions called in `from_meta_item.rs` take only the kind's
string payload, so the location path starts empty. -/
structure Error where
  kind : ErrorKind
  locations : List String
  deriving DecidableEq

/-- `Error::unsupported_format`, as called from `from_meta_item.rs`. -/
def Error.unsupportedFormat (format : String) : Error :=
  ⟨ErrorKind.unsupportedFormat format, []⟩

/-- `Error::unexpected_type`, as called from `from_meta_item.rs`. -/
def Error.unexpectedType (ty : String) : Error :=
  ⟨ErrorKind.unexpectedType ty, []⟩

/-- `Error::unknown_value`, as called from `from_meta_item.rs`. -/
def Error.unknownValue (value : String) : Error :=
  ⟨ErrorKind.unknownValue value, []⟩

/-- `Error::duplicate_field`, as called from `from_meta_item.rs`. -/
def Error.duplicateField (name : String) : Error :=
  ⟨ErrorKind.duplicateField name, []⟩

/-- An implementation of the `FromMetaItem` trait: one field per trait
method. Default method bodies are the `default*` functions below; an
implementation overrides a method by supplying its own function for the
field. -/
structure FromMetaItem (α : Type) where
  fromNestedMetaItem : NestedMetaItem → Except Error α
  fromMetaItem : MetaItem → Except Error α
  fromWord : Except Error α
  fromList : List NestedMetaItem → Except Error α
  fromValue : Lit → Except Error α
  fromChar : Char → Except Error α
  fromString : String → Except Error α
  fromBool : Bool → Except Error α

/-- Default body of `from_nested_meta_item`: a literal element goes to
`Self::from_value`, a nested meta item to `Self::from_meta_item`. The
callees are passed in, since Rust resolves `Self::` to the final (possibly
overridden) methods. -/
def defaultFromNestedMetaItem {α : Type} (value : Lit → Except Error α)
    (metaItem : MetaItem → Except Error α) : NestedMetaItem → Except Error α
  | .literal lit => value lit
  | .metaItem mi => metaItem mi

/-- Default body of `from_meta_item`: dispatch on the shape of the item.
A word goes to `Self::from_word()`, a list to `Self::from_list(items)`, a
name=value pair to `Self::from_value(val)`. -/
def defaultFromMetaItem {α : Type} (word : Except Error α)
    (list : List NestedMetaItem → Except Error α)
    (value : Lit → Except Error α) : MetaItem → Except Error α
  | .word _ => word
  | .list _ items => list items
  | .nameValue _ val => value val

/-- Default body of `from_word`: `Err(Error::unsupported_format("word"))`. -/
def defaultFromWord {α : Type} : Except Error α :=
  Except.error (Error.unsupportedFormat "word")

/-- Default body of `from_list`: `Err(Error::unsupported_format("list"))`,
whatever the items. -/
def defaultFromList {α : Type} (_items : List NestedMetaItem) : Except Error α :=
  Except.error (Error.unsupportedFormat "list")

/-- Default body of `from_value`: a bool literal goes to `Self::from_bool`,
a string literal to `Self::from_string`, and every other literal kind to
`Err(Error::unexpected_type("other"))`. -/
def defaultFromValue {α : Type} (fromBool : Bool → Except Error α)
    (fromString : String → Except Error α) : Lit → Except Error α
  | .bool b => fromBool b
  | .str s _ => fromString s
  | _ => Except.error (Error.unexpectedType "other")

/-- Default body of `from_char`: `Err(Error::unexpected_type("char"))`. -/
def defaultFromChar {α : Type} (_value : Char) : Except Error α :=
  Except.error (Error.unexpectedType "char")

/-- Default body of `from_string`: `Err(Error::unexpected_type("string"))`. -/
def defaultFromString {α : Type} (_value : String) : Except Error α :=
  Except.error (Error.unexpectedType "string")

/-- Default body of `from_bool`: `Err(Error::unexpected_type("bool"))`. -/
def defaultFromBool {α : Type} (_value : Bool) : Except Error α :=
  Except.error (Error.unexpectedType "bool")

/-- Assemble a `FromMetaItem` implementation from the five leaf methods
(`from_word`, `from_list`, `from_char`, `from_string`, `from_bool`) and
optional overrides of `from_value` and `from_meta_item`; methods not
overridden get the trait's default bodies, with `Self::` calls resolved to
the assembled methods, as in Rust. No impl in the source overrides
`from_nested_meta_item`, so it always gets the default body. -/
def build (α : Type) (word : Except Error α)
    (list : List NestedMetaItem → Except Error α)
    (char : Char → Except Error α)
    (string : String → Except Error α)
    (bool : Bool → Except Error α)
    (valueOverride : Option (Lit → Except Error α))
    (metaItemOverride : Option (MetaItem → Except Error α)) : FromMetaItem α :=
  let value := valueOverride.getD (defaultFromValue bool string)
  let metaItem := metaItemOverride.getD (defaultFromMetaItem word list value)
  { fromNestedMetaItem := defaultFromNestedMetaItem value metaItem
    fromMetaItem := metaItem
    fromWord := word
    fromList := list
    fromValue := value
    fromChar := char
    fromString := string
    fromBool := bool }

/-- Model of Rust's `str::parse::<bool>()` (std `FromStr` for `bool`): it
accepts exactly "true" and "false". -/
def rustParseBool (s : String) : Option Bool :=
  if s = "true" then some true
  else if s = "false" then some false
  else none

/-- `impl FromMetaItem for bool`: overrides `from_word` (bare word means
`true`), `from_bool` (identity) and `from_string`
(`value.parse().or_else(|_| Err(Error::unknown_value(value)))`). -/
def boolInst : FromMetaItem Bool :=
  build Bool (Except.ok true) defaultFromList defaultFromChar
    (fun s =>
      match rustParseBool s with
      | some b => Except.ok b
      | none => Except.error (Error.unknownValue s))
    (fun b => Except.ok b) none none

/-- `impl FromMetaItem for String`: overrides only `from_string`
(`Ok(s.to_string())`). -/
def stringInst : FromMetaItem String :=
  build String defaultFromWord defaultFromList defaultFromChar
    (fun s => Except.ok s) defaultFromBool none none

/-- Model of `syn::Path` as far as this file needs it: an opaque parsed
path value, here a list of segment names. -/
structure Path where
  segments : List String
  deriving DecidableEq

/-- `impl FromMetaItem for syn::Path`: overrides only `from_string`
(`syn::parse_path(value).or_else(|_| Err(Error::unknown_value(value)))`).
`syn::parse_path` is external crate code, so it is a parameter: any
function returning the parsed path or a failure. -/
def pathInst (parsePath : String → Option Path) : FromMetaItem Path :=
  build Path defaultFromWord defaultFromList defaultFromChar
    (fun s =>
      match parsePath s with
      | some p => Except.ok p
      | none => Except.error (Error.unknownValue s))
    defaultFromBool none none

/-- `impl<T: FromMetaItem> FromMetaItem for Option<T>`: overrides only
`from_meta_item` (`Ok(Some(FromMetaItem::from_meta_item(item)?))`). -/
def optionInst {T : Type} (inst : FromMetaItem T) : FromMetaItem (Option T) :=
  build (Option T) defaultFromWord defaultFromList defaultFromChar
    defaultFromString defaultFromBool none
    (some fun item =>
      match inst.fromMetaItem item with
      | Except.ok v => Except.ok (some v)
      | Except.error e => Except.error e)

/-- Lookup in the association-list model of `HashMap<String, V>`: the
role of `map.entry(key)` presence testing and of reading a binding. -/
def assocGet {V : Type} (k : String) : List (String × V) → Option V
  | [] => none
  | (k', v) :: rest => if k = k' then some v else assocGet k rest

/-- Loop body of `HashMap::<String, V>::from_list`, with the map built so
far as an explicit accumulator. A bare-literal element is skipped (the
`if let MetaItem` pattern fails). For a meta-item element, an occupied
entry for its name returns `Err(Error::duplicate_field(name))`; a vacant
entry converts it with `FromMetaItem::from_meta_item(inner)?` and inserts
the value. -/
def hashMapFromListAux {V : Type} (inst : FromMetaItem V)
    (map : List (String × V)) : List NestedMetaItem → Except Error (List (String × V))
  | [] => Except.ok map
  | NestedMetaItem.literal _ :: rest => hashMapFromListAux inst map rest
  | NestedMetaItem.metaItem inner :: rest =>
    match assocGet inner.name map with
    | some _ => Except.error (Error.duplicateField inner.name)
    | none =>
      match inst.fromMetaItem inner with
      | Except.error e => Except.error e
      | Except.ok v => hashMapFromListAux inst (map ++ [(inner.name, v)]) rest

/-- `HashMap::<String, V>::from_list`: start from the empty map. -/
def hashMapFromList {V : Type} (inst : FromMetaItem V)
    (nested : List NestedMetaItem) : Except Error (List (String × V)) :=
  hashMapFromListAux inst [] nested

/-- `impl<V: FromMetaItem> FromMetaItem for HashMap<String, V>`: overrides
only `from_list`. -/
def hashMapInst {V : Type} (inst : FromMetaItem V) : FromMetaItem (List (String × V)) :=
  build (List (String × V)) defaultFromWord (hashMapFromList inst)
    defaultFromChar defaultFromString defaultFromBool none none

/-- The meta-item elements of a nested list, in order; bare literals
contribute nothing. -/
def metaEntries : List NestedMetaItem → List MetaItem
  | [] => []
  | NestedMetaItem.literal _ :: rest => metaEntries rest
  | NestedMetaItem.metaItem mi :: rest => mi :: metaEntries rest

end Darling

namespace Darling

/-- C1: the default `from_meta_item` dispatches on the shape of the
attribute item — a bare word invokes `from_word()`, a list invokes
`from_list(items)` with exactly those items, a name=value pair invokes
`from_value(val)` with exactly that literal — and the default
`from_nested_meta_item` sends a literal element to `from_value` and a
nested meta item to `from_meta_item`. -/
theorem from_meta_item_dispatches_on_shape (α : Type)
    (word : Except Error α) (list : List NestedMetaItem → Except Error α)
    (value : Lit → Except Error α) (metaItem : MetaItem → Except Error α)
    (i : String) (items : List NestedMetaItem) (val : Lit) (lit : Lit) (mi : MetaItem) :
    defaultFromMetaItem word list value (MetaItem.word i) = word ∧
    defaultFromMetaItem word list value (MetaItem.list i items) = list items ∧
    defaultFromMetaItem word list value (MetaItem.nameValue i val) = value val ∧
    defaultFromNestedMetaItem value metaItem (NestedMetaItem.literal lit) = value lit ∧
    defaultFromNestedMetaItem value metaItem (NestedMetaItem.metaItem mi) = metaItem mi :=
  ⟨rfl, rfl, rfl, rfl, rfl⟩

/-- C3: unless overridden, `from_word()` returns an unsupported-format
error tagged "word" and `from_list(items)` returns an unsupported-format
error tagged "list" for every input list; hence `String`, which overrides
only value-form conversion, fails with exactly these typed errors on
word-shaped and list-shaped items. -/
theorem default_word_and_list_unsupported (α : Type)
    (items : List NestedMetaItem) (i j : String) :
    (defaultFromWord : Except Error α) = Except.error (Error.unsupportedFormat "word") ∧
    (defaultFromList items : Except Error α) = Except.error (Error.unsupportedFormat "list") ∧
    stringInst.fromMetaItem (MetaItem.word i) = Except.error (Error.unsupportedFormat "word") ∧
    stringInst.fromMetaItem (MetaItem.list j items) = Except.error (Error.unsupportedFormat "list") :=
  ⟨rfl, rfl, rfl, rfl⟩

/-- C4: the default `from_value` sends a bool literal to `from_bool` and a
string literal to `from_string`, returns an unexpected-type error for
every other literal kind (byte string, byte, char, int, float), and the
default `from_char`, `from_string` and `from_bool` return unexpected-type
errors naming the literal kind presented. -/
theorem from_value_dispatch_and_leaf_defaults (α : Type)
    (fb : Bool → Except Error α) (fs : String → Except Error α)
    (b : Bool) (s : String) (st : StrStyle) (bs : List Nat) (n k : Nat)
    (c : Char) (f : String) (ch : Char) (s2 : String) (b2 : Bool) :
    defaultFromValue fb fs (Lit.bool b) = fb b ∧
    defaultFromValue fb fs (Lit.str s st) = fs s ∧
    defaultFromValue fb fs (Lit.byteStr bs) = Except.error (Error.unexpectedType "other") ∧
    defaultFromValue fb fs (Lit.byte n) = Except.error (Error.unexpectedType "other") ∧
    defaultFromValue fb fs (Lit.char c) = Except.error (Error.unexpectedType "other") ∧
    defaultFromValue fb fs (Lit.int k) = Except.error (Error.unexpectedType "other") ∧
    defaultFromValue fb fs (Lit.float f) = Except.error (Error.unexpectedType "other") ∧
    (@defaultFromChar α ch) = Except.error (Error.unexpectedType "char") ∧
    (@defaultFromString α s2) = Except.error (Error.unexpectedType "string") ∧
    (@defaultFromBool α b2) = Except.error (Error.unexpectedType "bool") :=
  ⟨rfl, rfl, rfl, rfl, rfl, rfl, rfl, rfl, rfl, rfl⟩

/-- C9: the default `from_value` never invokes `from_char`: a char literal
in value position yields an unexpected-type error tagged "other" (not
"char"), whatever `from_char` override the implementation supplies. -/
theorem from_value_never_calls_from_char (α : Type) (w : Except Error α)
    (l : List NestedMetaItem → Except Error α) (c : Char → Except Error α)
    (s : String → Except Error α) (b : Bool → Except Error α) (ch : Char) (i : String) :
    (build α w l c s b none none).fromValue (Lit.char ch) =
      Except.error (Error.unexpectedType "other") ∧
    (build α w l c s b none none).fromMetaItem (MetaItem.nameValue i (Lit.char ch)) =
      Except.error (Error.unexpectedType "other") ∧
    Error.unexpectedType "other" ≠ Error.unexpectedType "char" :=
  ⟨rfl, rfl, by decide⟩

/-- C7: conversions are deterministic functions of their input — equal
meta items produce equal `from_meta_item` results, and equal nested lists
produce equal `HashMap` `from_list` results. -/
theorem conversions_deterministic (α V : Type)
    (inst : FromMetaItem α) (instV : FromMetaItem V)
    (i₁ i₂ : MetaItem) (l₁ l₂ : List NestedMetaItem)
    (hi : i₁ = i₂) (hl : l₁ = l₂) :
    inst.fromMetaItem i₁ = inst.fromMetaItem i₂ ∧
    hashMapFromList instV l₁ = hashMapFromList instV l₂ := by
  subst hi; subst hl; exact ⟨rfl, rfl⟩

/-- Witness for C7 at a concrete instance and input. -/
theorem conversions_deterministic_witness :
    boolInst.fromMetaItem (MetaItem.word "a") = boolInst.fromMetaItem (MetaItem.word "a") ∧
    hashMapFromList boolInst [NestedMetaItem.metaItem (MetaItem.word "a")] =
      hashMapFromList boolInst [NestedMetaItem.metaItem (MetaItem.word "a")] :=
  conversions_deterministic Bool Bool boolInst boolInst
    (MetaItem.word "a") (MetaItem.word "a")
    [NestedMetaItem.metaItem (MetaItem.word "a")]
    [NestedMetaItem.metaItem (MetaItem.word "a")] rfl rfl

/-- C8: `Option<T>::from_meta_item` returns `Ok(Some(t))` exactly when
`T::from_meta_item` returns `Ok(t)`, propagates exactly the same error,
and never returns `Ok(None)`. -/
theorem option_from_meta_item_wraps (T : Type) (inst : FromMetaItem T) (item : MetaItem) :
    (∀ t : T, (optionInst inst).fromMetaItem item = Except.ok (some t) ↔
      inst.fromMetaItem item = Except.ok t) ∧
    (∀ e : Error, (optionInst inst).fromMetaItem item = Except.error e ↔
      inst.fromMetaItem item = Except.error e) ∧
    (optionInst inst).fromMetaItem item ≠ Except.ok (none : Option T) := by
  have hmi : (optionInst inst).fromMetaItem item =
      match inst.fromMetaItem item with
      | Except.ok v => Except.ok (some v)
      | Except.error e => Except.error e := rfl
  cases h : inst.fromMetaItem item with
  | ok v =>
    rw [hmi, h]
    refine ⟨fun t => ?_, fun e => ?_, ?_⟩ <;> simp
  | error e =>
    rw [hmi, h]
    refine ⟨fun t => ?_, fun e' => ?_, ?_⟩ <;> simp

end Darling

namespace Darling

/-- C5: `bool::from_string` returns an unknown-value error carrying the
offending string for any string other than a valid bool representation
("true"/"false"), and `syn::Path::from_string` returns an unknown-value
error carrying the string whenever the external path parser fails on it. -/
theorem string_conversions_unknown_value (parsePath : String → Option Path)
    (s t : String) (hs1 : s ≠ "true") (hs2 : s ≠ "false") (ht : parsePath t = none) :
    boolInst.fromString s = Except.error (Error.unknownValue s) ∧
    (pathInst parsePath).fromString t = Except.error (Error.unknownValue t) := by
  constructor
  · show (match rustParseBool s with
      | some b => Except.ok b
      | none => Except.error (Error.unknownValue s)) = Except.error (Error.unknownValue s)
    have hb : rustParseBool s = none := by
      unfold rustParseBool
      rw [if_neg hs1, if_neg hs2]
    rw [hb]
  · show (match parsePath t with
      | some p => Except.ok p
      | none => Except.error (Error.unknownValue t)) = Except.error (Error.unknownValue t)
    rw [ht]

/-- Witness for C5: "yes" is not a bool representation and a parser that
rejects everything fails on "::x". -/
theorem string_conversions_unknown_value_witness :
    boolInst.fromString "yes" = Except.error (Error.unknownValue "yes") ∧
    (pathInst fun _ => none).fromString "::x" = Except.error (Error.unknownValue "::x") :=
  string_conversions_unknown_value (fun _ => none) "yes" "::x"
    (by decide) (by decide) rfl

/-- C6 counterexample: the unsupported-format error produced for a
word-shaped item carries a typed kind but an empty location path, so the
error as produced does not identify a position in the attribute syntax. -/
theorem error_position_counterexample :
    stringInst.fromMetaItem (MetaItem.word "ignore") =
      Except.error (Error.mk (ErrorKind.unsupportedFormat "word") []) ∧
    ¬ ∃ e : Error, stringInst.fromMetaItem (MetaItem.word "ignore") = Except.error e ∧
      e.locations ≠ [] := by
  refine ⟨rfl, ?_⟩
  rintro ⟨e, he, hne⟩
  have h : Except.error (Error.mk (ErrorKind.unsupportedFormat "word") []) =
      (Except.error e : Except Error String) := he
  cases h
  exact hne rfl

/-- C6 amended: every error the conversion defaults produce is structured —
a typed kind identifying which mismatch occurred — while its location path
is empty; position information is not attached at the production site. -/
theorem errors_structured_empty_locations (α : Type)
    (items : List NestedMetaItem) (ch : Char) (s : String) (b : Bool) (c : Char) :
    (defaultFromWord : Except Error α) =
      Except.error (Error.mk (ErrorKind.unsupportedFormat "word") []) ∧
    (defaultFromList items : Except Error α) =
      Except.error (Error.mk (ErrorKind.unsupportedFormat "list") []) ∧
    (@defaultFromChar α ch) = Except.error (Error.mk (ErrorKind.unexpectedType "char") []) ∧
    (@defaultFromString α s) = Except.error (Error.mk (ErrorKind.unexpectedType "string") []) ∧
    (@defaultFromBool α b) = Except.error (Error.mk (ErrorKind.unexpectedType "bool") []) ∧
    defaultFromValue (@defaultFromBool α) (@defaultFromString α) (Lit.char c) =
      Except.error (Error.mk (ErrorKind.unexpectedType "other") []) :=
  ⟨rfl, rfl, rfl, rfl, rfl, rfl⟩

end Darling

namespace Darling

@[simp]
theorem metaEntries_nil : metaEntries [] = [] := rfl

@[simp]
theorem metaEntries_literal (lit : Lit) (rest : List NestedMetaItem) :
    metaEntries (NestedMetaItem.literal lit :: rest) = metaEntries rest := rfl

@[simp]
theorem metaEntries_metaItem (mi : MetaItem) (rest : List NestedMetaItem) :
    metaEntries (NestedMetaItem.metaItem mi :: rest) = mi :: metaEntries rest := rfl

theorem hashMapAux_nil {V : Type} (inst : FromMetaItem V) (map : List (String × V)) :
    hashMapFromListAux inst map [] = Except.ok map := rfl

theorem hashMapAux_literal {V : Type} (inst : FromMetaItem V) (map : List (String × V))
    (lit : Lit) (rest : List NestedMetaItem) :
    hashMapFromListAux inst map (NestedMetaItem.literal lit :: rest) =
      hashMapFromListAux inst map rest := rfl

theorem hashMapAux_metaItem {V : Type} (inst : FromMetaItem V) (map : List (String × V))
    (inner : MetaItem) (rest : List NestedMetaItem) :
    hashMapFromListAux inst map (NestedMetaItem.metaItem inner :: rest) =
      match assocGet inner.name map with
      | some _ => Except.error (Error.duplicateField inner.name)
      | none =>
        match inst.fromMetaItem inner with
        | Except.error e => Except.error e
        | Except.ok v => hashMapFromListAux inst (map ++ [(inner.name, v)]) rest := rfl

theorem assocGet_isSome_iff {V : Type} (k : String) (m : List (String × V)) :
    (assocGet k m).isSome ↔ k ∈ m.map Prod.fst := by
  induction m with
  | nil => simp [assocGet]
  | cons p rest ih =>
    obtain ⟨k', v⟩ := p
    by_cases h : k = k' <;> simp [assocGet, h, ih]

theorem assocGet_eq_none {V : Type} {k : String} {m : List (String × V)}
    (h : k ∉ m.map Prod.fst) : assocGet k m = none := by
  cases hg : assocGet k m with
  | none => rfl
  | some v =>
    exact absurd ((assocGet_isSome_iff k m).mp (by simp [hg])) h

theorem assocGet_append_left {V : Type} {k : String} {m₁ : List (String × V)}
    (m₂ : List (String × V)) (h : k ∈ m₁.map Prod.fst) :
    assocGet k (m₁ ++ m₂) = assocGet k m₁ := by
  induction m₁ with
  | nil => simp at h
  | cons p rest ih =>
    obtain ⟨k', v⟩ := p
    by_cases hk : k = k'
    · simp [assocGet, hk]
    · simp only [List.map_cons, List.mem_cons] at h
      simp only [List.cons_append, assocGet, if_neg hk]
      exact ih (h.resolve_left hk)

theorem assocGet_append_right {V : Type} {k : String} {m₁ : List (String × V)}
    (m₂ : List (String × V)) (h : k ∉ m₁.map Prod.fst) :
    assocGet k (m₁ ++ m₂) = assocGet k m₂ := by
  induction m₁ with
  | nil => rfl
  | cons p rest ih =>
    obtain ⟨k', v⟩ := p
    simp only [List.map_cons, List.mem_cons, not_or] at h
    simp only [List.cons_append, assocGet, if_neg h.1]
    exact ih h.2

theorem hashMapAux_ok {V : Type} (inst : FromMetaItem V) (l : List NestedMetaItem) :
    ∀ map : List (String × V),
    (map.map Prod.fst ++ (metaEntries l).map MetaItem.name).Nodup →
    (∀ mi ∈ metaEntries l, ∃ v, inst.fromMetaItem mi = Except.ok v) →
    ∃ m, hashMapFromListAux inst map l = Except.ok m ∧
      m.map Prod.fst = map.map Prod.fst ++ (metaEntries l).map MetaItem.name ∧
      (∀ k ∈ map.map Prod.fst, assocGet k m = assocGet k map) ∧
      (∀ mi ∈ metaEntries l, ∀ v, inst.fromMetaItem mi = Except.ok v →
        assocGet mi.name m = some v) := by
  induction l with
  | nil =>
    intro map _ _
    exact ⟨map, rfl, by simp, fun k _ => rfl, by simp⟩
  | cons x rest ih =>
    intro map hnodup hok
    cases x with
    | literal lit =>
      obtain ⟨m, hm, hkeys, hpres, hbind⟩ := ih map (by simpa using hnodup) (by simpa using hok)
      exact ⟨m, by rw [hashMapAux_literal]; exact hm, by simpa using hkeys, hpres,
        by simpa using hbind⟩
    | metaItem inner =>
      simp only [metaEntries_metaItem, List.map_cons] at hnodup hok
      have hdisj : (map.map Prod.fst).Disjoint
          (inner.name :: (metaEntries rest).map MetaItem.name) :=
        List.disjoint_of_nodup_append hnodup
      have hnotin : inner.name ∉ map.map Prod.fst :=
        fun hmem => hdisj hmem (List.mem_cons_self _ _)
      have h0 : assocGet inner.name map = none := assocGet_eq_none hnotin
      obtain ⟨v, hv⟩ := hok inner (List.mem_cons_self _ _)
      have hnodup' : ((map ++ [(inner.name, v)]).map Prod.fst ++
          (metaEntries rest).map MetaItem.name).Nodup := by
        simpa [List.append_assoc] using hnodup
      obtain ⟨m, hm, hkeys, hpres, hbind⟩ := ih (map ++ [(inner.name, v)]) hnodup'
        (fun mi hmi => hok mi (List.mem_cons_of_mem _ hmi))
      have hinkeys : inner.name ∈ (map ++ [(inner.name, v)]).map Prod.fst := by simp
      refine ⟨m, ?_, ?_, ?_, ?_⟩
      · rw [hashMapAux_metaItem, h0, hv]
        exact hm
      · simpa [List.append_assoc] using hkeys
      · intro k hk
        have h1 : assocGet k m = assocGet k (map ++ [(inner.name, v)]) :=
          hpres k (by simp [hk])
        rw [h1, assocGet_append_left _ hk]
      · intro mi hmi v' hv'
        rcases List.mem_cons.mp hmi with h | h
        · subst h
          have hvv : v' = v := by
            have := hv.symm.trans hv'
            exact (Except.ok.inj this).symm
          subst hvv
          rw [hpres mi.name hinkeys, assocGet_append_right _ hnotin]
          simp [assocGet]
        · exact hbind mi h v' hv'

theorem hashMapAux_dup {V : Type} (inst : FromMetaItem V) (l₁ : List NestedMetaItem) :
    ∀ (map : List (String × V)) (mi : MetaItem) (l₂ : List NestedMetaItem),
    (map.map Prod.fst ++ (metaEntries l₁).map MetaItem.name).Nodup →
    mi.name ∈ map.map Prod.fst ++ (metaEntries l₁).map MetaItem.name →
    (∀ m ∈ metaEntries l₁, ∃ v, inst.fromMetaItem m = Except.ok v) →
    hashMapFromListAux inst map (l₁ ++ NestedMetaItem.metaItem mi :: l₂) =
      Except.error (Error.duplicateField mi.name) := by
  induction l₁ with
  | nil =>
    intro map mi l₂ _ hmem _
    simp only [metaEntries_nil, List.map_nil, List.append_nil] at hmem
    have hsome : (assocGet mi.name map).isSome := (assocGet_isSome_iff _ _).mpr hmem
    obtain ⟨v, hv⟩ := Option.isSome_iff_exists.mp hsome
    rw [List.nil_append, hashMapAux_metaItem, hv]
  | cons x rest ih =>
    intro map mi l₂ hnodup hmem hok
    cases x with
    | literal lit =>
      rw [List.cons_append, hashMapAux_literal]
      exact ih map mi l₂ (by simpa using hnodup) (by simpa using hmem)
        (by simpa using hok)
    | metaItem m₀ =>
      simp only [metaEntries_metaItem, List.map_cons] at hnodup hmem hok
      have hdisj : (map.map Prod.fst).Disjoint
          (m₀.name :: (metaEntries rest).map MetaItem.name) :=
        List.disjoint_of_nodup_append hnodup
      have h₀notin : m₀.name ∉ map.map Prod.fst :=
        fun hmem0 => hdisj hmem0 (List.mem_cons_self _ _)
      obtain ⟨v, hv⟩ := hok m₀ (List.mem_cons_self _ _)
      rw [List.cons_append, hashMapAux_metaItem, assocGet_eq_none h₀notin, hv]
      exact ih (map ++ [(m₀.name, v)]) mi l₂
        (by simpa [List.append_assoc] using hnodup)
        (by simpa [List.append_assoc] using hmem)
        (fun m hm => hok m (List.mem_cons_of_mem _ hm))

theorem hashMapAux_failFast {V : Type} (inst : FromMetaItem V) (l₁ : List NestedMetaItem) :
    ∀ (map : List (String × V)) (mi : MetaItem) (l₂ : List NestedMetaItem) (e : Error),
    (map.map Prod.fst ++ (metaEntries l₁).map MetaItem.name).Nodup →
    mi.name ∉ map.map Prod.fst ++ (metaEntries l₁).map MetaItem.name →
    (∀ m ∈ metaEntries l₁, ∃ v, inst.fromMetaItem m = Except.ok v) →
    inst.fromMetaItem mi = Except.error e →
    hashMapFromListAux inst map (l₁ ++ NestedMetaItem.metaItem mi :: l₂) =
      Except.error e := by
  induction l₁ with
  | nil =>
    intro map mi l₂ e _ hnotin _ he
    simp only [metaEntries_nil, List.map_nil, List.append_nil] at hnotin
    rw [List.nil_append, hashMapAux_metaItem, assocGet_eq_none hnotin, he]
  | cons x rest ih =>
    intro map mi l₂ e hnodup hnotin hok he
    cases x with
    | literal lit =>
      rw [List.cons_append, hashMapAux_literal]
      exact ih map mi l₂ e (by simpa using hnodup) (by simpa using hnotin)
        (by simpa using hok) he
    | metaItem m₀ =>
      simp only [metaEntries_metaItem, List.map_cons] at hnodup hnotin hok
      have hdisj : (map.map Prod.fst).Disjoint
          (m₀.name :: (metaEntries rest).map MetaItem.name) :=
        List.disjoint_of_nodup_append hnodup
      have h₀notin : m₀.name ∉ map.map Prod.fst :=
        fun hmem => hdisj hmem (List.mem_cons_self _ _)
      obtain ⟨v, hv⟩ := hok m₀ (List.mem_cons_self _ _)
      rw [List.cons_append, hashMapAux_metaItem, assocGet_eq_none h₀notin, hv]
      exact ih (map ++ [(m₀.name, v)]) mi l₂ e
        (by simpa [List.append_assoc] using hnodup)
        (by simpa [List.append_assoc] using hnotin)
        (fun m hm => hok m (List.mem_cons_of_mem _ hm)) he

theorem hashMapAux_all_literal {V : Type} (inst : FromMetaItem V)
    (nested : List NestedMetaItem) :
    ∀ map : List (String × V),
    (∀ x ∈ nested, ∃ lit, x = NestedMetaItem.literal lit) →
    hashMapFromListAux inst map nested = Except.ok map := by
  induction nested with
  | nil => intro map _; rfl
  | cons x rest ih =>
    intro map h
    obtain ⟨lit, rfl⟩ := h x (List.mem_cons_self _ _)
    rw [hashMapAux_literal]
    exact ih map (fun y hy => h y (List.mem_cons_of_mem _ hy))

end Darling

namespace Darling

/-- C2 counterexample: the list `(a = 'x', b, b)` has two meta-item
entries named "b", yet `HashMap::from_list` over `bool` values returns the
unexpected-type conversion error of the earlier entry `a = 'x'`, not a
duplicate-field error. -/
theorem hashMap_duplicate_shadowed_by_conversion_error :
    (metaEntries [NestedMetaItem.metaItem (MetaItem.nameValue "a" (Lit.char 'x')),
        NestedMetaItem.metaItem (MetaItem.word "b"),
        NestedMetaItem.metaItem (MetaItem.word "b")]).map MetaItem.name = ["a", "b", "b"] ∧
    hashMapFromList boolInst
        [NestedMetaItem.metaItem (MetaItem.nameValue "a" (Lit.char 'x')),
          NestedMetaItem.metaItem (MetaItem.word "b"),
          NestedMetaItem.metaItem (MetaItem.word "b")] =
      Except.error (Error.unexpectedType "other") ∧
    ¬ ∃ n, hashMapFromList boolInst
        [NestedMetaItem.metaItem (MetaItem.nameValue "a" (Lit.char 'x')),
          NestedMetaItem.metaItem (MetaItem.word "b"),
          NestedMetaItem.metaItem (MetaItem.word "b")] =
      Except.error (Error.duplicateField n) := by
  refine ⟨rfl, rfl, ?_⟩
  rintro ⟨n, hn⟩
  rw [show hashMapFromList boolInst
        [NestedMetaItem.metaItem (MetaItem.nameValue "a" (Lit.char 'x')),
          NestedMetaItem.metaItem (MetaItem.word "b"),
          NestedMetaItem.metaItem (MetaItem.word "b")] =
      Except.error (Error.unexpectedType "other") from rfl] at hn
  simp [Error.unexpectedType, Error.duplicateField] at hn

/-- C2 amended: if a meta-item entry's name already occurred among the
(pairwise-distinct) names of the meta-item entries before it, and every
meta-item entry before it converts successfully, `from_list` returns a
duplicate-field error carrying exactly that repeated name — the name of
the entry at the second occurrence, which also names an earlier entry; if
all meta-item entry names are distinct and every entry converts
successfully, it returns a map binding each entry's name to the value
parsed from that entry. -/
theorem hashMap_from_list_characterized (V : Type) (inst : FromMetaItem V) :
    (∀ (l₁ : List NestedMetaItem) (mi : MetaItem) (l₂ : List NestedMetaItem),
      ((metaEntries l₁).map MetaItem.name).Nodup →
      mi.name ∈ (metaEntries l₁).map MetaItem.name →
      (∀ m ∈ metaEntries l₁, ∃ v, inst.fromMetaItem m = Except.ok v) →
      hashMapFromList inst (l₁ ++ NestedMetaItem.metaItem mi :: l₂) =
        Except.error (Error.duplicateField mi.name)) ∧
    (∀ nested : List NestedMetaItem,
      ((metaEntries nested).map MetaItem.name).Nodup →
      (∀ m ∈ metaEntries nested, ∃ v, inst.fromMetaItem m = Except.ok v) →
      ∃ m, hashMapFromList inst nested = Except.ok m ∧
        ∀ mi ∈ metaEntries nested, ∀ v, inst.fromMetaItem mi = Except.ok v →
          assocGet mi.name m = some v) := by
  constructor
  · intro l₁ mi l₂ hnodup hmem hok
    exact hashMapAux_dup inst l₁ [] mi l₂ (by simpa using hnodup)
      (by simpa using hmem) hok
  · intro nested hnodup hok
    obtain ⟨m, hm, _, _, hbind⟩ := hashMapAux_ok inst nested [] (by simpa using hnodup) hok
    exact ⟨m, hm, hbind⟩

/-- Witness for the amended C2: `(a, a)` yields a duplicate-field error
carrying the repeated name "a", and `(b,)` converts to a map binding "b". -/
theorem hashMap_from_list_characterized_witness :
    (hashMapFromList boolInst
        ([NestedMetaItem.metaItem (MetaItem.word "a")] ++
          NestedMetaItem.metaItem (MetaItem.word "a") :: []) =
      Except.error (Error.duplicateField (MetaItem.word "a").name)) ∧
    (∃ m, hashMapFromList boolInst [NestedMetaItem.metaItem (MetaItem.word "b")] =
        Except.ok m ∧
      ∀ mi ∈ metaEntries [NestedMetaItem.metaItem (MetaItem.word "b")],
        ∀ v, boolInst.fromMetaItem mi = Except.ok v → assocGet mi.name m = some v) := by
  have h := hashMap_from_list_characterized Bool boolInst
  refine ⟨h.1 [NestedMetaItem.metaItem (MetaItem.word "a")] (MetaItem.word "a") [] ?_ ?_ ?_,
    h.2 [NestedMetaItem.metaItem (MetaItem.word "b")] ?_ ?_⟩
  · simp [MetaItem.name]
  · simp [MetaItem.name]
  · intro m hm
    simp only [metaEntries_metaItem, metaEntries_nil, List.mem_singleton] at hm
    subst hm
    exact ⟨true, rfl⟩
  · simp [MetaItem.name]
  · intro m hm
    simp only [metaEntries_metaItem, metaEntries_nil, List.mem_singleton] at hm
    subst hm
    exact ⟨true, rfl⟩

/-- C10: `HashMap::from_list` skips every bare-literal element (it
contributes no entry and no error), a list of only literals yields the
empty map, and the conversion fails fast with the first nested conversion
error, discarding the partially built map. -/
theorem hashMap_skips_literals_and_fails_fast (V : Type) (inst : FromMetaItem V) :
    (∀ (map : List (String × V)) (lit : Lit) (rest : List NestedMetaItem),
      hashMapFromListAux inst map (NestedMetaItem.literal lit :: rest) =
        hashMapFromListAux inst map rest) ∧
    (∀ nested : List NestedMetaItem,
      (∀ x ∈ nested, ∃ lit, x = NestedMetaItem.literal lit) →
      hashMapFromList inst nested = Except.ok []) ∧
    (∀ (l₁ : List NestedMetaItem) (mi : MetaItem) (l₂ : List NestedMetaItem) (e : Error),
      ((metaEntries l₁).map MetaItem.name).Nodup →
      mi.name ∉ (metaEntries l₁).map MetaItem.name →
      (∀ m ∈ metaEntries l₁, ∃ v, inst.fromMetaItem m = Except.ok v) →
      inst.fromMetaItem mi = Except.error e →
      hashMapFromList inst (l₁ ++ NestedMetaItem.metaItem mi :: l₂) =
        Except.error e) := by
  refine ⟨fun map lit rest => hashMapAux_literal inst map lit rest, ?_, ?_⟩
  · intro nested h
    exact hashMapAux_all_literal inst nested [] h
  · intro l₁ mi l₂ e hnodup hnotin hok he
    exact hashMapAux_failFast inst l₁ [] mi l₂ e (by simpa using hnodup)
      (by simpa using hnotin) hok he

/-- Witness for C10: a literal is skipped, an all-literal list gives the
empty map, and a failing entry after a successful one returns the
conversion error. -/
theorem hashMap_skips_literals_and_fails_fast_witness :
    hashMapFromListAux boolInst [] (NestedMetaItem.literal (Lit.int 3) ::
        [NestedMetaItem.metaItem (MetaItem.word "a")]) =
      hashMapFromListAux boolInst [] [NestedMetaItem.metaItem (MetaItem.word "a")] ∧
    hashMapFromList boolInst [NestedMetaItem.literal (Lit.int 3),
        NestedMetaItem.literal (Lit.bool true)] = Except.ok [] ∧
    hashMapFromList boolInst
        ([NestedMetaItem.metaItem (MetaItem.word "a")] ++
          NestedMetaItem.metaItem (MetaItem.nameValue "b" (Lit.char 'x')) ::
            [NestedMetaItem.metaItem (MetaItem.word "c")]) =
      Except.error (Error.unexpectedType "other") := by
  have h := hashMap_skips_literals_and_fails_fast Bool boolInst
  refine ⟨h.1 [] (Lit.int 3) [NestedMetaItem.metaItem (MetaItem.word "a")], ?_, ?_⟩
  · refine h.2.1 [NestedMetaItem.literal (Lit.int 3),
      NestedMetaItem.literal (Lit.bool true)] ?_
    intro x hx
    rcases List.mem_cons.mp hx with h1 | h1
    · exact ⟨Lit.int 3, h1⟩
    · rcases List.mem_cons.mp h1 with h2 | h2
      · exact ⟨Lit.bool true, h2⟩
      · simp at h2
  · refine h.2.2 [NestedMetaItem.metaItem (MetaItem.word "a")]
      (MetaItem.nameValue "b" (Lit.char 'x'))
      [NestedMetaItem.metaItem (MetaItem.word "c")]
      (Error.unexpectedType "other") ?_ ?_ ?_ rfl
    · simp
    · simp [MetaItem.name]
    · intro m hm
      simp only [metaEntries_metaItem, metaEntries_nil, List.mem_singleton] at hm
      subst hm
      exact ⟨true, rfl⟩

end Darling
